import Mathlib

/-!
Verification development for the stdio kernel transport
(`src/dotnet-interactive-vscode/src/stdioKernelTransport.ts`).

The TypeScript class `StdioKernelTransport` is shallowly embedded here:

* JavaScript array primitives (`indexOf`, element assignment, `splice`,
  spread copy) are modelled on `List String` / `List α`;
* `parseInt` and template-string rendering of a number are modelled by
  `parseIntJS` and `natToString` (canonical base-10, sufficient for the
  nonnegative port numbers the transport handles);
* `configureHttpArgs` is embedded twice: as a pure function on the copied
  list, and over an explicit heap of arrays to reason about aliasing of
  the caller's argument array;
* the observer machinery (`subscribeToKernelEvents`, `handleLine` and its
  index-based notification loop, disposal of subscriptions) is embedded as
  a state machine over `TransportState`, with the invocation of a callback
  given by the observer's kind (a plain external observer, an observer that
  disposes its own subscription from inside its callback, and the transient
  readiness listener installed by the constructor);
* `isNotNull`, `submitCommand` and `dispose` are embedded over a three-point
  JavaScript value domain (`undefined` / `null` / an actual process handle),
  because `isNotNull` compares against `undefined` while the field it is
  applied to is `T | null`.

`findFreePort` performs real socket I/O; the port it yields is passed as an
explicit parameter `freePort` to the embeddings of `configureHttpArgs`.
-/

/-! ## JavaScript primitives -/

/-- JavaScript value domain distinguishing `undefined`, `null` and a real
value; `StdioKernelTransport.childProcess` has TypeScript type
`ChildProcessWithoutNullStreams | null`. -/
inductive JSValue (α : Type) : Type
  | undefined : JSValue α
  | null : JSValue α
  | value : α → JSValue α
deriving DecidableEq

/-- Embedding of `Array.prototype.indexOf`: the index of the first occurrence
of `x`, or `-1` when `x` does not occur. -/
def jsIndexOf {α : Type} [DecidableEq α] (x : α) : List α → Int
  | [] => -1
  | y :: ys =>
    if y = x then 0
    else
      let r := jsIndexOf x ys
      if r < 0 then -1 else r + 1

/-- Embedding of the JavaScript element assignment `xs[i] = v`.  In the
transport `i` is always at most the array length, so the only out-of-range
case that matters is `i = xs.length`, where JavaScript grows the array by
one element. -/
def setAtJS {α : Type} (xs : List α) (i : Nat) (v : α) : List α :=
  if i < xs.length then xs.set i v else xs ++ [v]

/-- Embedding of `Array.prototype.splice(i, 1)`: remove the element at
index `i`. -/
def spliceOne {α : Type} (xs : List α) (i : Nat) : List α :=
  xs.eraseIdx i

/-- Longest leading run of decimal digit characters. -/
def leadingDigits : List Char → List Char
  | [] => []
  | c :: cs => if c.isDigit then c :: leadingDigits cs else []

/-- Value of a digit string, most significant digit first. -/
def digitsToNat (ds : List Char) : Nat :=
  ds.foldl (fun acc c => acc * 10 + (c.toNat - 48)) 0

/-- Embedding of JavaScript `parseInt` restricted to the nonnegative decimal
numerals the transport deals in: the longest leading digit run is parsed;
`none` models `NaN` (no leading digit). -/
def parseIntJS (s : String) : Option Nat :=
  let ds := leadingDigits s.data
  if ds = [] then none else some (digitsToNat ds)

/-- Embedding of `parseInt(xs[i])`: reading past the end of a JavaScript
array yields `undefined`, and `parseInt(undefined)` is `NaN` (`none`). -/
def jsParseIntAt (xs : List String) (i : Nat) : Option Nat :=
  match xs[i]? with
  | none => none
  | some s => parseIntJS s

/-- Character of a single decimal digit. -/
def digitCharOf (d : Nat) : Char :=
  Char.ofNat (48 + d % 10)

/-- Fuel-indexed base-10 rendering, most significant digit first. -/
def natToDigitListAux : Nat → Nat → List Char
  | 0, _ => []
  | fuel + 1, n =>
    if n < 10 then [digitCharOf n]
    else natToDigitListAux fuel (n / 10) ++ [digitCharOf (n % 10)]

/-- Base-10 digit list of `n`; fuel `n + 1` is always sufficient. -/
def natToDigitList (n : Nat) : List Char :=
  natToDigitListAux (n + 1) n

/-- Embedding of the template-string rendering of a JavaScript number, used
by the transport as a bare decimal numeral. -/
def natToString (n : Nat) : String :=
  ⟨natToDigitList n⟩

/-! ## Argument negotiation (`configureHttpArgs`) -/

/-- Outcome of `configureHttpArgs`: the rewritten argument list, the value
assigned to the transport's `httpPort` field (`none` models `NaN` from a
failed `parseInt`), and the number of deprecation lines appended to the
diagnostic sink. -/
structure ConfigResult : Type where
  newArgs : List String
  httpPort : Option Nat
  deprecationCount : Nat
deriving DecidableEq

/-- Embedding of `StdioKernelTransport.configureHttpArgs`.  `freePort` is the
value produced by `findFreePort` in the branches that consult it.  The
source makes a spread copy `let newArgs = [...args]` and mutates only the
copy; here `newArgs` starts as the input list and the result is the final
value of the copy. -/
def configureHttpArgs (freePort : Nat) (args : List String) : ConfigResult :=
  let newArgs := args
  let index := jsIndexOf "--http-port" newArgs
  if index < 0 then
    let index2 := jsIndexOf "--http-port-range" newArgs
    if index2 > 0 then
      let n1 := setAtJS newArgs index2.toNat "--http-port"
      let n2 := setAtJS n1 (index2.toNat + 1) (natToString freePort)
      { newArgs := n2, httpPort := some freePort, deprecationCount := 1 }
    else
      { newArgs := newArgs ++ ["--http-port", natToString freePort]
        httpPort := some freePort
        deprecationCount := 0 }
  else
    { newArgs := newArgs
      httpPort := jsParseIntAt newArgs (index.toNat + 1)
      deprecationCount := 0 }

/-- Heap of JavaScript arrays, addressed by allocation index. -/
abbrev ArrayHeap : Type := List (List String)

/-- Read an array out of the heap (a dangling reference reads as empty;
never exercised by the theorems, whose references are in range). -/
def heapRead (h : ArrayHeap) (r : Nat) : List String :=
  (h[r]?).getD []

/-- Overwrite the array stored at reference `r`. -/
def heapWrite (h : ArrayHeap) (r : Nat) (xs : List String) : ArrayHeap :=
  h.set r xs

/-- Embedding of `configureHttpArgs` over an explicit heap of arrays, to
state what happens to the caller's array.  `argsRef` is the reference held
by the caller; the spread `[...args]` allocates a fresh array at the end of
the heap, and every subsequent element assignment or push targets that new
reference.  Returns the final heap, the reference returned by the function,
the assigned port, and the deprecation-line count. -/
def configureHttpArgsHeap (freePort : Nat) (h : ArrayHeap) (argsRef : Nat) :
    ArrayHeap × Nat × Option Nat × Nat :=
  let newRef := h.length
  let h1 := h ++ [heapRead h argsRef]
  let index := jsIndexOf "--http-port" (heapRead h1 newRef)
  if index < 0 then
    let index2 := jsIndexOf "--http-port-range" (heapRead h1 newRef)
    if index2 > 0 then
      let h2 := heapWrite h1 newRef
        (setAtJS (heapRead h1 newRef) index2.toNat "--http-port")
      let h3 := heapWrite h2 newRef
        (setAtJS (heapRead h2 newRef) (index2.toNat + 1) (natToString freePort))
      (h3, newRef, some freePort, 1)
    else
      let h2 := heapWrite h1 newRef
        (heapRead h1 newRef ++ ["--http-port", natToString freePort])
      (h2, newRef, some freePort, 0)
  else
    (h1, newRef, jsParseIntAt (heapRead h1 newRef) (index.toNat + 1), 0)

/-! ## Event envelopes and the observer machinery -/

/-- Event payload; the transport only ever reads the `message` field of a
diagnostic log entry (`contracts.ts`, external to this core). -/
structure KernelEvent : Type where
  message : String
deriving DecidableEq

/-- Inbound event envelope: a discriminant string and an event payload
(`contracts.ts`, external to this core). -/
structure KernelEventEnvelope : Type where
  eventType : String
  event : KernelEvent
deriving DecidableEq

/-- Reserved discriminant for diagnostic log entries (`contracts.ts`). -/
def DiagnosticLogEntryProducedType : String := "DiagnosticLogEntryProduced"

/-- Reserved discriminant for the readiness sentinel (`contracts.ts`). -/
def KernelReadyType : String := "KernelReady"

/-- Behaviour of a subscribed callback when invoked:

* `plain` — an external observer that only records the envelope;
* `selfDispose` — an observer that calls `dispose()` on its own
  subscription handle from inside its callback;
* `readyListener` — the transient listener the constructor registers, which
  on seeing the ready discriminant disposes its own handle and then resolves
  the readiness promise. -/
inductive ObserverKind : Type
  | plain : ObserverKind
  | selfDispose : ObserverKind
  | readyListener : ObserverKind
deriving DecidableEq

/-- A subscribed callback; `id` stands for the function's identity (JavaScript
compares callbacks by reference in `indexOf`). -/
structure Observer : Type where
  id : Nat
  kind : ObserverKind
deriving DecidableEq

/-- Observable state of the transport's event plumbing: the live subscriber
array, the number of calls made to the readiness promise's `resolve`, the
log of callback invocations (callback identity paired with the envelope it
received, in call order), and the lines appended to the diagnostic sink. -/
structure TransportState : Type where
  subscribers : List Observer
  resolveCalls : Nat
  notifications : List (Nat × KernelEventEnvelope)
  diagnosticLines : List String
deriving DecidableEq

/-- Embedding of the `dispose` closure returned by `subscribeToKernelEvents`:
`indexOf` the exact callback, and `splice` it out when found. -/
def disposeSub (obs : Observer) (subs : List Observer) : List Observer :=
  let i := jsIndexOf obs subs
  if i ≥ 0 then spliceOne subs i.toNat else subs

/-- Embedding of `subscribeToKernelEvents`: push the callback onto the end of
the subscriber array (the disposable handle it returns is `disposeSub obs`). -/
def subscribeToKernelEvents (obs : Observer) (subs : List Observer) : List Observer :=
  subs ++ [obs]

/-- Effect of invoking one subscribed callback on the envelope: the invocation
is recorded, then the callback's body runs (`plain` does nothing; the others
dispose their own handle, and the ready listener also resolves — but only when
the discriminant is the ready sentinel). -/
def applyObserver (obs : Observer) (env : KernelEventEnvelope)
    (s : TransportState) : TransportState :=
  let s1 := { s with notifications := s.notifications ++ [(obs.id, env)] }
  match obs.kind with
  | .plain => s1
  | .selfDispose => { s1 with subscribers := disposeSub obs s1.subscribers }
  | .readyListener =>
    if env.eventType = KernelReadyType then
      { s1 with
        subscribers := disposeSub obs s1.subscribers
        resolveCalls := s1.resolveCalls + 1 }
    else s1

/-- One iteration of the notification loop: `this.subscribers[i](envelope)`.
Indexing past the end of the live array yields `undefined`, and calling
`undefined` throws — modelled by `none`. -/
def invokeAt (s : TransportState) (i : Nat) (env : KernelEventEnvelope) :
    Option TransportState :=
  match s.subscribers[i]? with
  | none => none
  | some obs => some (applyObserver obs env s)

/-- Embedding of `for (let i = this.subscribers.length - 1; i >= 0; i--)`:
the bound is read once at loop entry, the array is re-read live at each
iteration.  `notifyLoop env n s` runs the iterations with `i = n-1, …, 0`. -/
def notifyLoop (env : KernelEventEnvelope) : Nat → TransportState → Option TransportState
  | 0, s => some s
  | n + 1, s =>
    match invokeAt s n env with
    | none => none
    | some s2 => notifyLoop env n s2

/-- Embedding of `handleLine` after decoding: a diagnostic-log envelope first
has its message appended to the diagnostic sink, then the envelope is pushed
to the subscribers by the downward index loop. -/
def handleLine (env : KernelEventEnvelope) (s : TransportState) :
    Option TransportState :=
  let s1 :=
    if env.eventType = DiagnosticLogEntryProducedType then
      { s with diagnosticLines := s.diagnosticLines ++ [env.event.message] }
    else s
  notifyLoop env s1.subscribers.length s1

/-- Deliver a sequence of decoded lines to the transport in stream order. -/
def processEnvelopes : List KernelEventEnvelope → TransportState → Option TransportState
  | [], s => some s
  | e :: es, s =>
    match handleLine e s with
    | none => none
    | some s2 => processEnvelopes es s2

/-- The transient readiness listener registered by the constructor (callback
identity `0`). -/
def readyObserver : Observer :=
  { id := 0, kind := .readyListener }

/-- Transport state right after construction, with `externals` the observers
subscribed afterwards: the constructor subscribes the ready listener first,
and each later registration pushes onto the end of the array. -/
def initialTransportState (externals : List Observer) : TransportState :=
  { subscribers :=
      externals.foldl (fun subs o => subscribeToKernelEvents o subs)
        (subscribeToKernelEvents readyObserver [])
    resolveCalls := 0
    notifications := []
    diagnosticLines := [] }

/-! ## Command submission and disposal -/

/-- A process handle as the transport sees it; only its presence matters. -/
structure ProcHandle : Type where
  pid : Nat
deriving DecidableEq

/-- Embedding of `StdioKernelTransport.isNotNull`: the source compares its
argument — of TypeScript type `T | null` — against `undefined`, and
`null !== undefined` holds in JavaScript. -/
def isNotNull {α : Type} (obj : JSValue α) : Bool :=
  match obj with
  | .undefined => false
  | _ => true

/-- Outcome of a `submitCommand` call: the promise resolves after writing the
serialized envelope and a newline, rejects with no reason via `reject()`, or
rejects with a thrown `TypeError` when a member of `null` is accessed inside
the executor. -/
inductive SubmitOutcome : Type
  | resolvedWrote : List String → SubmitOutcome
  | rejectedNoReason : SubmitOutcome
  | rejectedTypeError : SubmitOutcome
deriving DecidableEq

/-- Embedding of `submitCommand`.  `str` is the serialized command envelope
(`stringify(submit)`, external utility).  When `isNotNull` approves the
handle, the executor evaluates `this.childProcess.stdin` — a throwing member
access when the handle is `null` or `undefined`, which rejects the promise
with the thrown `TypeError`. -/
def submitCommand (str : String) (childProcess : JSValue ProcHandle) :
    SubmitOutcome :=
  if isNotNull childProcess then
    match childProcess with
    | .value _ => .resolvedWrote [str, "\n"]
    | _ => .rejectedTypeError
  else
    .rejectedNoReason

/-- Outcome of a `dispose` call on the transport. -/
inductive DisposeOutcome : Type
  | killedProcess : DisposeOutcome
  | noEffect : DisposeOutcome
  | threwTypeError : DisposeOutcome
deriving DecidableEq

/-- Embedding of `StdioKernelTransport.dispose`: when `isNotNull` approves the
handle, `this.childProcess.kill()` is evaluated — a throwing member access
when the handle is `null` or `undefined`. -/
def disposeTransport (childProcess : JSValue ProcHandle) : DisposeOutcome :=
  if isNotNull childProcess then
    match childProcess with
    | .value _ => .killedProcess
    | _ => .threwTypeError
  else
    .noEffect

/-! ## Helper lemmas about the numeral embedding -/

/-- Every character produced by `digitCharOf` is a decimal digit. -/
lemma digitCharOf_isDigit (d : Nat) : (digitCharOf d).isDigit = true := by
  unfold digitCharOf
  have h : d % 10 < 10 := Nat.mod_lt d (by norm_num)
  generalize d % 10 = m at h ⊢
  interval_cases m <;> decide

/-- Numeric value of a character produced by `digitCharOf`. -/
lemma digitCharOf_val (d : Nat) : (digitCharOf d).toNat - 48 = d % 10 := by
  unfold digitCharOf
  have h : d % 10 < 10 := Nat.mod_lt d (by norm_num)
  generalize d % 10 = m at h ⊢
  interval_cases m <;> decide

/-- Appending one digit multiplies the accumulated value by ten. -/
lemma digitsToNat_append (xs : List Char) (c : Char) :
    digitsToNat (xs ++ [c]) = digitsToNat xs * 10 + (c.toNat - 48) := by
  simp [digitsToNat, List.foldl_append]

/-- With sufficient fuel, the rendering is correct, consists of digits only,
and is nonempty. -/
lemma natToDigitListAux_spec :
    ∀ fuel n, n < fuel →
      digitsToNat (natToDigitListAux fuel n) = n ∧
      (∀ c ∈ natToDigitListAux fuel n, c.isDigit = true) ∧
      natToDigitListAux fuel n ≠ [] := by
  intro fuel
  induction fuel with
  | zero => intro n hn; omega
  | succ fuel ih =>
    intro n hn
    by_cases h10 : n < 10
    · refine ⟨?_, ?_, ?_⟩ <;> simp only [natToDigitListAux, if_pos h10]
      · have := digitCharOf_val n
        simp [digitsToNat]
        omega
      · intro c hc
        simp at hc
        simpa [hc] using digitCharOf_isDigit n
      · simp
    · have hdiv : n / 10 < fuel := by
        have h1 : n / 10 < n := Nat.div_lt_self (by omega) (by norm_num)
        omega
      obtain ⟨ihv, ihd, ihne⟩ := ih (n / 10) hdiv
      refine ⟨?_, ?_, ?_⟩ <;> simp only [natToDigitListAux, if_neg h10]
      · rw [digitsToNat_append, ihv, digitCharOf_val]
        have := Nat.div_add_mod n 10
        have hm : n % 10 < 10 := Nat.mod_lt n (by norm_num)
        omega
      · intro c hc
        rcases List.mem_append.mp hc with hc | hc
        · exact ihd c hc
        · simp at hc
          simpa [hc] using digitCharOf_isDigit (n % 10)
      · simp

/-- Every character of `natToDigitList n` is a digit. -/
lemma natToDigitList_digits (n : Nat) :
    ∀ c ∈ natToDigitList n, c.isDigit = true :=
  (natToDigitListAux_spec (n + 1) n (by omega)).2.1

/-- Digit-only strings survive `leadingDigits` unchanged. -/
lemma leadingDigits_of_all (l : List Char) (h : ∀ c ∈ l, c.isDigit = true) :
    leadingDigits l = l := by
  induction l with
  | nil => rfl
  | cons c cs ih =>
    simp only [leadingDigits]
    rw [if_pos (h c (by simp)), ih (fun c hc => h c (by simp [hc]))]

/-- Parsing the rendering of `n` recovers `n`: the embedding of
`parseInt` inverts the embedding of JavaScript number rendering. -/
lemma parseIntJS_natToString (n : Nat) : parseIntJS (natToString n) = some n := by
  obtain ⟨hv, hd, hne⟩ := natToDigitListAux_spec (n + 1) n (by omega)
  have hdata : (natToString n).data = natToDigitList n := rfl
  simp only [parseIntJS, hdata]
  rw [leadingDigits_of_all _ (natToDigitList_digits n)]
  simp only [natToDigitList] at hne hv ⊢
  rw [if_neg hne, hv]

/-- The rendering of a number is never a string containing a dash. -/
lemma natToString_ne_dashed (n : Nat) (s : String) (hc : '-' ∈ s.data) :
    natToString n ≠ s := by
  intro h
  have hd := natToDigitList_digits n
  have hdata : natToDigitList n = s.data := congrArg String.data h
  have : ('-').isDigit = true := hd '-' (by rw [hdata]; exact hc)
  exact absurd this (by decide)

/-! ## Helper lemmas about the array primitives -/

/-- Elements that do not occur report index `-1`. -/
lemma jsIndexOf_of_not_mem {α : Type} [DecidableEq α] (x : α) :
    ∀ xs : List α, x ∉ xs → jsIndexOf x xs = -1 := by
  intro xs
  induction xs with
  | nil => intro _; rfl
  | cons y ys ih =>
    intro h
    have hy : ¬(y = x) := fun hy => h (by simp [hy])
    have hys : x ∉ ys := fun hm => h (by simp [hm])
    simp only [jsIndexOf, if_neg hy, ih hys]
    norm_num

/-- The index of the first occurrence: any occurring element splits the list
at a position before which it does not occur, and `jsIndexOf` reports exactly
that position. -/
lemma jsIndexOf_mem_split {α : Type} [DecidableEq α] (x : α) :
    ∀ xs : List α, x ∈ xs →
      ∃ l₁ l₂, xs = l₁ ++ x :: l₂ ∧ x ∉ l₁ ∧ jsIndexOf x xs = l₁.length := by
  intro xs
  induction xs with
  | nil => intro h; simp at h
  | cons y ys ih =>
    intro h
    by_cases hy : y = x
    · exact ⟨[], ys, by simp [hy], by simp, by simp [jsIndexOf, hy]⟩
    · have hm : x ∈ ys := by
        rcases List.mem_cons.mp h with h | h
        · exact absurd h.symm hy
        · exact h
      obtain ⟨l₁, l₂, hsplit, hnm, hidx⟩ := ih hm
      refine ⟨y :: l₁, l₂, by simp [hsplit], ?_, ?_⟩
      · intro hc
        rcases List.mem_cons.mp hc with hc | hc
        · exact hy hc.symm
        · exact hnm hc
      · simp only [jsIndexOf, if_neg hy, hidx]
        rw [if_neg (by omega)]
        simp

/-- Setting the element at the position of the split replaces it. -/
lemma set_append_cons {α : Type} (v x : α) :
    ∀ (l₁ l₂ : List α), (l₁ ++ x :: l₂).set l₁.length v = l₁ ++ v :: l₂ := by
  intro l₁
  induction l₁ with
  | nil => intro l₂; rfl
  | cons a l₁ ih => intro l₂; simp [List.set, ih]

/-- Removing the element at the position of the split drops it. -/
lemma eraseIdx_append_cons {α : Type} (x : α) :
    ∀ (l₁ l₂ : List α), (l₁ ++ x :: l₂).eraseIdx l₁.length = l₁ ++ l₂ := by
  intro l₁
  induction l₁ with
  | nil => intro l₂; rfl
  | cons a l₁ ih => intro l₂; simp [List.eraseIdx, ih]

/-- Reading at the position of the split yields the split element. -/
lemma getElem?_append_cons {α : Type} (x : α) :
    ∀ (l₁ l₂ : List α), (l₁ ++ x :: l₂)[l₁.length]? = some x := by
  intro l₁
  induction l₁ with
  | nil => intro l₂; simp
  | cons a l₁ ih => intro l₂; simpa using ih l₂

/-- Index reported for an element occurring right after a segment that does
not contain it. -/
lemma jsIndexOf_append_cons {α : Type} [DecidableEq α] (x : α) :
    ∀ (l₁ l₂ : List α), x ∉ l₁ → jsIndexOf x (l₁ ++ x :: l₂) = l₁.length := by
  intro l₁
  induction l₁ with
  | nil => intro l₂ _; simp [jsIndexOf]
  | cons a l₁ ih =>
    intro l₂ h
    have ha : ¬(a = x) := fun hc => h (by simp [hc])
    have hl : x ∉ l₁ := fun hc => h (by simp [hc])
    simp only [List.cons_append, jsIndexOf, if_neg ha, List.append_eq, ih l₂ hl]
    rw [if_neg (by omega)]
    simp

/-- Disposing a subscription whose callback is still registered removes
exactly the first matching registration. -/
lemma disposeSub_append_cons (x : Observer) (l₁ l₂ : List Observer)
    (h : x ∉ l₁) : disposeSub x (l₁ ++ x :: l₂) = l₁ ++ l₂ := by
  simp only [disposeSub, jsIndexOf_append_cons x l₁ l₂ h, spliceOne]
  rw [if_pos (by positivity)]
  simp only [Int.toNat_natCast]
  exact eraseIdx_append_cons x l₁ l₂

/-- Disposing a subscription whose callback is no longer registered is a
no-op: `indexOf` reports `-1` and nothing is spliced out. -/
lemma disposeSub_of_not_mem (x : Observer) (xs : List Observer) (h : x ∉ xs) :
    disposeSub x xs = xs := by
  simp only [disposeSub, jsIndexOf_of_not_mem x xs h]
  rfl

/-! ## Helper lemmas about the notification loop -/

/-- Running the notification loop across a segment of indices `b + a - 1, …, b`
whose observers are all plain: each is invoked exactly once, in descending
index order, and the loop then continues below `b` with only the invocation
log extended. -/
lemma notifyLoop_plain_seg (env : KernelEventEnvelope) (b : Nat) :
    ∀ (a : Nat) (s : TransportState), b + a ≤ s.subscribers.length →
      (∀ o ∈ (s.subscribers.drop b).take a, o.kind = ObserverKind.plain) →
      notifyLoop env (b + a) s =
        notifyLoop env b
          { s with notifications :=
              s.notifications ++
                ((s.subscribers.drop b).take a).reverse.map (fun o => (o.id, env)) } := by
  intro a
  induction a with
  | zero =>
    intro s _ _
    simp
  | succ a ih =>
    intro s hlen hp
    have hb : b + a < s.subscribers.length := by omega
    have hd : a < (s.subscribers.drop b).length := by
      simp only [List.length_drop]
      omega
    have hget : (s.subscribers.drop b)[a] = s.subscribers[b + a] := by
      rw [List.getElem_drop]
    have htake : (s.subscribers.drop b).take (a + 1)
        = (s.subscribers.drop b).take a ++ [s.subscribers[b + a]] := by
      rw [List.take_succ, List.getElem?_eq_getElem hd, hget]
      simp
    have ho : s.subscribers[b + a].kind = ObserverKind.plain := by
      apply hp
      rw [htake]
      simp
    have hpa : ∀ o ∈ (s.subscribers.drop b).take a, o.kind = ObserverKind.plain := by
      intro o hm
      apply hp
      rw [htake]
      exact List.mem_append_left _ hm
    have hstep : notifyLoop env (b + (a + 1)) s
        = notifyLoop env (b + a) (applyObserver s.subscribers[b + a] env s) := by
      have hadd : b + (a + 1) = (b + a) + 1 := by omega
      rw [hadd]
      simp only [notifyLoop, invokeAt, List.getElem?_eq_getElem hb]
    have happ : applyObserver s.subscribers[b + a] env s
        = { s with notifications := s.notifications ++ [(s.subscribers[b + a].id, env)] } := by
      simp [applyObserver, ho]
    rw [hstep, happ]
    rw [ih _ (by show b + a ≤ s.subscribers.length; omega)
      (by show ∀ o ∈ (s.subscribers.drop b).take a, o.kind = ObserverKind.plain
          exact hpa)]
    congr 1
    simp [htake, List.append_assoc]

/-- A loop over a fully plain subscriber array notifies every subscriber
once, most recently registered first, and changes nothing else. -/
lemma notifyLoop_all_plain (env : KernelEventEnvelope) (s : TransportState)
    (hp : ∀ o ∈ s.subscribers, o.kind = ObserverKind.plain) :
    notifyLoop env s.subscribers.length s =
      some { s with notifications :=
        s.notifications ++ s.subscribers.reverse.map (fun o => (o.id, env)) } := by
  have h := notifyLoop_plain_seg env 0 s.subscribers.length s
    (by omega) (by simpa using hp)
  simp only [Nat.zero_add, List.drop_zero, List.take_length] at h
  rw [h]
  rfl

/-- A single loop iteration starting at index `0`. -/
lemma notifyLoop_one (env : KernelEventEnvelope) (s : TransportState)
    (obs : Observer) (h0 : s.subscribers[0]? = some obs) :
    notifyLoop env 1 s = some (applyObserver obs env s) := by
  simp [notifyLoop, invokeAt, h0]

/-- Invoking the transient ready listener at the head of the subscriber
array: on the ready discriminant it splices itself out and resolves, on any
other discriminant it does nothing beyond being invoked. -/
lemma applyObserver_ready (env : KernelEventEnvelope) (s : TransportState)
    (plains : List Observer) (hs : s.subscribers = readyObserver :: plains) :
    applyObserver readyObserver env s =
      if env.eventType = KernelReadyType then
        { s with
            subscribers := plains
            resolveCalls := s.resolveCalls + 1
            notifications := s.notifications ++ [(readyObserver.id, env)] }
      else
        { s with notifications := s.notifications ++ [(readyObserver.id, env)] } := by
  have hdis : disposeSub readyObserver (readyObserver :: plains) = plains := by
    simpa using disposeSub_append_cons readyObserver [] plains (by simp)
  by_cases hr : env.eventType = KernelReadyType <;>
    simp [applyObserver, hr, hs, hdis,
      show readyObserver.kind = ObserverKind.readyListener from rfl]

/-- Full effect of `handleLine` when every registered observer is plain. -/
lemma handleLine_all_plain (env : KernelEventEnvelope) (s : TransportState)
    (hp : ∀ o ∈ s.subscribers, o.kind = ObserverKind.plain) :
    handleLine env s = some
      { subscribers := s.subscribers
        resolveCalls := s.resolveCalls
        notifications := s.notifications ++ s.subscribers.reverse.map (fun o => (o.id, env))
        diagnosticLines :=
          if env.eventType = DiagnosticLogEntryProducedType then
            s.diagnosticLines ++ [env.event.message]
          else s.diagnosticLines } := by
  by_cases hd : env.eventType = DiagnosticLogEntryProducedType <;>
    simp only [handleLine, hd, if_true, if_false, ite_true, ite_false]
  · exact notifyLoop_all_plain env
      { subscribers := s.subscribers
        resolveCalls := s.resolveCalls
        notifications := s.notifications
        diagnosticLines := s.diagnosticLines ++ [env.event.message] }
      (by simpa using hp)
  · exact notifyLoop_all_plain env s hp

/-- Running the loop over `readyObserver :: plains`: the plain observers are
notified first (they sit above index `0`), then the ready listener fires. -/
lemma notifyLoop_ready_head (env : KernelEventEnvelope) (plains : List Observer)
    (s : TransportState) (hs : s.subscribers = readyObserver :: plains)
    (hp : ∀ o ∈ plains, o.kind = ObserverKind.plain) :
    notifyLoop env s.subscribers.length s =
      some (applyObserver readyObserver env
        { s with notifications :=
            s.notifications ++ plains.reverse.map (fun o => (o.id, env)) }) := by
  have hlen : s.subscribers.length = 1 + plains.length := by
    rw [hs]
    simp [Nat.add_comm]
  have htp : (s.subscribers.drop 1).take plains.length = plains := by
    rw [hs]
    simp
  have hseg := notifyLoop_plain_seg env 1 plains.length s (le_of_eq hlen.symm)
    (by rw [htp]; exact hp)
  rw [htp] at hseg
  rw [hlen, hseg]
  apply notifyLoop_one
  show s.subscribers[0]? = some readyObserver
  rw [hs]
  simp

/-- Full effect of `handleLine` on a transport whose subscriber array is the
ready listener followed by plain observers. -/
lemma handleLine_ready_head (env : KernelEventEnvelope) (plains : List Observer)
    (s : TransportState) (hs : s.subscribers = readyObserver :: plains)
    (hp : ∀ o ∈ plains, o.kind = ObserverKind.plain) :
    handleLine env s = some
      { subscribers :=
          if env.eventType = KernelReadyType then plains else readyObserver :: plains
        resolveCalls :=
          if env.eventType = KernelReadyType then s.resolveCalls + 1 else s.resolveCalls
        notifications :=
          (s.notifications ++ plains.reverse.map (fun o => (o.id, env)))
            ++ [(readyObserver.id, env)]
        diagnosticLines :=
          if env.eventType = DiagnosticLogEntryProducedType then
            s.diagnosticLines ++ [env.event.message]
          else s.diagnosticLines } := by
  have hkd : ¬ (DiagnosticLogEntryProducedType = KernelReadyType) := by decide
  have hkd2 : ¬ (KernelReadyType = DiagnosticLogEntryProducedType) := fun h => hkd h.symm
  by_cases hd : env.eventType = DiagnosticLogEntryProducedType
  · have hr : ¬ env.eventType = KernelReadyType := by rw [hd]; exact hkd
    simp only [handleLine, hd, hr, ite_true, ite_false]
    refine (notifyLoop_ready_head env plains
      { s with diagnosticLines := s.diagnosticLines ++ [env.event.message] } hs hp).trans ?_
    refine congrArg some ((applyObserver_ready env _ plains (by exact hs)).trans ?_)
    simp only [hr, ite_true, ite_false]
    simp [hs, hkd, hkd2]
  · by_cases hr : env.eventType = KernelReadyType
    · simp only [handleLine, hd, hr, ite_true, ite_false]
      refine (notifyLoop_ready_head env plains s hs hp).trans ?_
      refine congrArg some ((applyObserver_ready env _ plains (by exact hs)).trans ?_)
      simp only [hr, ite_true, ite_false]
      simp [hs, hkd, hkd2]
    · simp only [handleLine, hd, hr, ite_true, ite_false]
      refine (notifyLoop_ready_head env plains s hs hp).trans ?_
      refine congrArg some ((applyObserver_ready env _ plains (by exact hs)).trans ?_)
      simp only [hr, ite_true, ite_false]
      simp [hs, hkd, hkd2]

/-- Over any stream of lines, plain observers never change the subscriber
array or the resolve count. -/
lemma processEnvelopes_all_plain :
    ∀ (envs : List KernelEventEnvelope) (s : TransportState),
      (∀ o ∈ s.subscribers, o.kind = ObserverKind.plain) →
      ∃ s2, processEnvelopes envs s = some s2 ∧
        s2.subscribers = s.subscribers ∧ s2.resolveCalls = s.resolveCalls := by
  intro envs
  induction envs with
  | nil => intro s _; exact ⟨s, rfl, rfl, rfl⟩
  | cons e es ih =>
    intro s hp
    have h1 := handleLine_all_plain e s hp
    obtain ⟨s2, h2, hsub, hres⟩ := ih
      { subscribers := s.subscribers
        resolveCalls := s.resolveCalls
        notifications := s.notifications ++ s.subscribers.reverse.map (fun o => (o.id, e))
        diagnosticLines :=
          if e.eventType = DiagnosticLogEntryProducedType then
            s.diagnosticLines ++ [e.event.message]
          else s.diagnosticLines }
      (by exact hp)
    exact ⟨s2, by simp only [processEnvelopes, h1]; exact h2, hsub, hres⟩

/-- Main readiness invariant: starting from a subscriber array headed by the
transient ready listener (with every other observer plain) and a resolve
count of zero, processing any stream of lines succeeds; the resolve count
becomes one and the listener is gone exactly when some line carried the
ready discriminant, and nothing changes otherwise. -/
lemma processEnvelopes_ready_head :
    ∀ (envs : List KernelEventEnvelope) (plains : List Observer) (s : TransportState),
      s.subscribers = readyObserver :: plains →
      (∀ o ∈ plains, o.kind = ObserverKind.plain) →
      s.resolveCalls = 0 →
      ∃ s2, processEnvelopes envs s = some s2 ∧
        ((∃ e ∈ envs, e.eventType = KernelReadyType) →
          s2.resolveCalls = 1 ∧ s2.subscribers = plains) ∧
        ((∀ e ∈ envs, ¬ e.eventType = KernelReadyType) →
          s2.resolveCalls = 0 ∧ s2.subscribers = readyObserver :: plains) := by
  intro envs
  induction envs with
  | nil =>
    intro plains s hs hp hr0
    refine ⟨s, rfl, ?_, ?_⟩
    · rintro ⟨e, he, _⟩
      simp at he
    · intro _
      exact ⟨hr0, hs⟩
  | cons e es ih =>
    intro plains s hs hp hr0
    obtain ⟨s1, h1e, h1sub, h1res⟩ :
        ∃ s1, handleLine e s = some s1 ∧
          s1.subscribers =
            (if e.eventType = KernelReadyType then plains else readyObserver :: plains) ∧
          s1.resolveCalls =
            (if e.eventType = KernelReadyType then s.resolveCalls + 1 else s.resolveCalls) :=
      ⟨_, handleLine_ready_head e plains s hs hp, rfl, rfl⟩
    by_cases hr : e.eventType = KernelReadyType
    · rw [if_pos hr] at h1sub
      rw [if_pos hr, hr0] at h1res
      obtain ⟨s2, h2, hsub, hres⟩ := processEnvelopes_all_plain es s1
        (by rw [h1sub]; exact hp)
      refine ⟨s2, by simp only [processEnvelopes, h1e]; exact h2, ?_, ?_⟩
      · intro _
        exact ⟨by rw [hres, h1res], by rw [hsub, h1sub]⟩
      · intro hall
        exact absurd hr (hall e (by simp))
    · rw [if_neg hr] at h1sub
      rw [if_neg hr, hr0] at h1res
      obtain ⟨s2, h2, himp1, himp2⟩ := ih plains s1 h1sub hp h1res
      refine ⟨s2, by simp only [processEnvelopes, h1e]; exact h2, ?_, ?_⟩
      · rintro ⟨e', he', hre'⟩
        rcases List.mem_cons.mp he' with heq | hm
        · exact absurd (heq ▸ hre') hr
        · exact himp1 ⟨e', hm, hre'⟩
      · intro hall
        exact himp2 (fun e' hm => hall e' (List.mem_cons_of_mem e hm))

/-- Subscribing a batch of observers pushes them in order onto the end. -/
lemma foldl_subscribe (l : List Observer) :
    ∀ init : List Observer,
      l.foldl (fun subs o => subscribeToKernelEvents o subs) init = init ++ l := by
  induction l with
  | nil => intro init; simp
  | cons a l ih =>
    intro init
    simp only [List.foldl_cons, ih]
    simp [subscribeToKernelEvents]

/-- Running the loop over `pre ++ selfObs :: post` where `selfObs` disposes
its own handle from inside its callback and everything else is plain: the
loop completes without any out-of-range call, every observer is invoked
exactly once, and `selfObs` is spliced out. -/
lemma notifyLoop_selfDispose_mid (env : KernelEventEnvelope)
    (pre post : List Observer) (selfObs : Observer) (s : TransportState)
    (hs : s.subscribers = pre ++ selfObs :: post)
    (hk : selfObs.kind = ObserverKind.selfDispose)
    (hpre : ∀ o ∈ pre, o.kind = ObserverKind.plain)
    (hpost : ∀ o ∈ post, o.kind = ObserverKind.plain)
    (hnpre : selfObs ∉ pre) :
    notifyLoop env s.subscribers.length s =
      some { s with
        subscribers := pre ++ post
        notifications :=
          ((s.notifications ++ post.reverse.map (fun o => (o.id, env)))
            ++ [(selfObs.id, env)]) ++ pre.reverse.map (fun o => (o.id, env)) } := by
  have hlen : s.subscribers.length = (pre.length + 1) + post.length := by
    rw [hs]
    simp only [List.length_append, List.length_cons]
    omega
  have hdropA : (s.subscribers.drop (pre.length + 1)).take post.length = post := by
    rw [hs, show pre ++ selfObs :: post = (pre ++ [selfObs]) ++ post by simp,
      show pre.length + 1 = (pre ++ [selfObs]).length by simp]
    rw [List.drop_left, List.take_length]
  have hseg1 := notifyLoop_plain_seg env (pre.length + 1) post.length s
    (le_of_eq hlen.symm) (by rw [hdropA]; exact hpost)
  rw [hdropA] at hseg1
  rw [hlen, hseg1]
  have hget : s.subscribers[pre.length]? = some selfObs := by
    rw [hs]
    exact getElem?_append_cons selfObs pre post
  have hstep :
      notifyLoop env (pre.length + 1)
        { s with notifications :=
            s.notifications ++ post.reverse.map (fun o => (o.id, env)) } =
      notifyLoop env pre.length
        (applyObserver selfObs env
          { s with notifications :=
              s.notifications ++ post.reverse.map (fun o => (o.id, env)) }) := by
    simp only [notifyLoop, invokeAt]
    rw [show ({ s with notifications :=
        s.notifications ++ post.reverse.map (fun o => (o.id, env)) } :
          TransportState).subscribers[pre.length]? = some selfObs from hget]
  rw [hstep]
  have happ : applyObserver selfObs env
      { s with notifications :=
          s.notifications ++ post.reverse.map (fun o => (o.id, env)) } =
      { s with
        subscribers := pre ++ post
        notifications :=
          (s.notifications ++ post.reverse.map (fun o => (o.id, env)))
            ++ [(selfObs.id, env)] } := by
    simp only [applyObserver, hk]
    rw [show ({ s with notifications :=
        (s.notifications ++ post.reverse.map (fun o => (o.id, env)))
          ++ [(selfObs.id, env)] } : TransportState).subscribers
        = pre ++ selfObs :: post from hs]
    rw [disposeSub_append_cons selfObs pre post hnpre]
  rw [happ]
  have hseg2 := notifyLoop_plain_seg env 0 pre.length
    { s with
      subscribers := pre ++ post
      notifications :=
        (s.notifications ++ post.reverse.map (fun o => (o.id, env)))
          ++ [(selfObs.id, env)] }
    (by show 0 + pre.length ≤ (pre ++ post).length
        simp only [List.length_append]
        omega)
    (by rw [show ((pre ++ post).drop 0).take pre.length = pre by
        simp [List.take_left]]; exact hpre)
  rw [show pre.length = 0 + pre.length from (Nat.zero_add pre.length).symm]
  rw [hseg2]
  simp only [notifyLoop]
  simp [List.take_left]

/-- Full effect of `handleLine` when a self-disposing observer sits in the
middle of an otherwise plain subscriber array. -/
lemma handleLine_selfDispose_mid (env : KernelEventEnvelope)
    (pre post : List Observer) (selfObs : Observer) (s : TransportState)
    (hs : s.subscribers = pre ++ selfObs :: post)
    (hk : selfObs.kind = ObserverKind.selfDispose)
    (hpre : ∀ o ∈ pre, o.kind = ObserverKind.plain)
    (hpost : ∀ o ∈ post, o.kind = ObserverKind.plain)
    (hnpre : selfObs ∉ pre) :
    handleLine env s = some
      { subscribers := pre ++ post
        resolveCalls := s.resolveCalls
        notifications :=
          ((s.notifications ++ post.reverse.map (fun o => (o.id, env)))
            ++ [(selfObs.id, env)]) ++ pre.reverse.map (fun o => (o.id, env))
        diagnosticLines :=
          if env.eventType = DiagnosticLogEntryProducedType then
            s.diagnosticLines ++ [env.event.message]
          else s.diagnosticLines } := by
  by_cases hd : env.eventType = DiagnosticLogEntryProducedType <;>
    simp only [handleLine, hd, ite_true, ite_false]
  · exact notifyLoop_selfDispose_mid env pre post selfObs
      { s with diagnosticLines := s.diagnosticLines ++ [env.event.message] }
      hs hk hpre hpost hnpre
  · exact notifyLoop_selfDispose_mid env pre post selfObs s hs hk hpre hpost hnpre

/-! ## Claim theorems -/

/-- C1: the readiness promise resolves at most once; it resolves exactly when
an envelope carrying the ready discriminant has been delivered to the line
handler; and the transient listener is still registered exactly while the
promise is unresolved (it disposes itself upon firing, so no registration is
leaked and no second resolution is possible). -/
theorem readiness_resolved_once_iff_ready_delivered
    (externals : List Observer) (envs : List KernelEventEnvelope)
    (hp : ∀ o ∈ externals, o.kind = ObserverKind.plain) :
    ∃ s2, processEnvelopes envs (initialTransportState externals) = some s2 ∧
      s2.resolveCalls ≤ 1 ∧
      (s2.resolveCalls = 1 ↔ ∃ e ∈ envs, e.eventType = KernelReadyType) ∧
      (readyObserver ∈ s2.subscribers ↔ s2.resolveCalls = 0) := by
  have hinit : (initialTransportState externals).subscribers
      = readyObserver :: externals := by
    show externals.foldl (fun subs o => subscribeToKernelEvents o subs)
        (subscribeToKernelEvents readyObserver []) = readyObserver :: externals
    rw [foldl_subscribe]
    rfl
  obtain ⟨s2, h2, himp1, himp2⟩ :=
    processEnvelopes_ready_head envs externals (initialTransportState externals)
      hinit hp rfl
  have hnotmem : readyObserver ∉ externals := by
    intro hm
    have := hp readyObserver hm
    simp [readyObserver] at this
  by_cases hex : ∃ e ∈ envs, e.eventType = KernelReadyType
  · obtain ⟨hres, hsub⟩ := himp1 hex
    refine ⟨s2, h2, by omega, ?_, ?_⟩
    · exact ⟨fun _ => hex, fun _ => hres⟩
    · rw [hsub, hres]
      exact ⟨fun hm => absurd hm hnotmem, fun h => absurd h one_ne_zero⟩
  · obtain ⟨hres, hsub⟩ := himp2 (by push_neg at hex; exact hex)
    refine ⟨s2, h2, by omega, ?_, ?_⟩
    · rw [hres]
      exact ⟨fun h => absurd h (by decide), fun h => absurd h hex⟩
    · rw [hsub, hres]
      simp

/-- Witness for C1: one plain external observer, a stream consisting of a
single ready envelope. -/
theorem readiness_resolved_once_iff_ready_delivered_witness :
    (∀ o ∈ ([⟨7, ObserverKind.plain⟩] : List Observer),
        o.kind = ObserverKind.plain) ∧
    (∃ s2, processEnvelopes [⟨KernelReadyType, ⟨""⟩⟩]
        (initialTransportState [⟨7, ObserverKind.plain⟩]) = some s2 ∧
      s2.resolveCalls ≤ 1 ∧
      (s2.resolveCalls = 1 ↔
        ∃ e ∈ ([⟨KernelReadyType, ⟨""⟩⟩] : List KernelEventEnvelope),
          e.eventType = KernelReadyType) ∧
      (readyObserver ∈ s2.subscribers ↔ s2.resolveCalls = 0)) :=
  ⟨by decide,
   readiness_resolved_once_iff_ready_delivered
     [⟨7, ObserverKind.plain⟩] [⟨KernelReadyType, ⟨""⟩⟩] (by decide)⟩

/-- C6: with N registered observers, none of which modifies the observer set
during notification, one inbound envelope yields exactly N notifications,
each observer receiving that envelope, ordered from most-recently-registered
to earliest-registered, and the observer set is unchanged. -/
theorem handleLine_notifies_each_observer_once
    (s : TransportState) (env : KernelEventEnvelope)
    (hp : ∀ o ∈ s.subscribers, o.kind = ObserverKind.plain) :
    ∃ s2, handleLine env s = some s2 ∧
      s2.notifications =
        s.notifications ++ s.subscribers.reverse.map (fun o => (o.id, env)) ∧
      s2.notifications.length = s.notifications.length + s.subscribers.length ∧
      s2.subscribers = s.subscribers :=
  ⟨_, handleLine_all_plain env s hp, rfl, by simp, rfl⟩

/-- Witness for C6: two plain observers receive one envelope each, newest
first. -/
theorem handleLine_notifies_each_observer_once_witness :
    (∀ o ∈ ({ subscribers := [⟨1, ObserverKind.plain⟩, ⟨2, ObserverKind.plain⟩]
              resolveCalls := 0
              notifications := []
              diagnosticLines := [] } : TransportState).subscribers,
        o.kind = ObserverKind.plain) ∧
    (∃ s2, handleLine ⟨"SomeEvent", ⟨"m"⟩⟩
        { subscribers := [⟨1, ObserverKind.plain⟩, ⟨2, ObserverKind.plain⟩]
          resolveCalls := 0
          notifications := []
          diagnosticLines := [] } = some s2 ∧
      s2.notifications =
        ([] : List (Nat × KernelEventEnvelope)) ++
          ([⟨1, ObserverKind.plain⟩, ⟨2, ObserverKind.plain⟩] :
            List Observer).reverse.map (fun o => (o.id, (⟨"SomeEvent", ⟨"m"⟩⟩ : KernelEventEnvelope))) ∧
      s2.notifications.length = ([] : List (Nat × KernelEventEnvelope)).length + 2 ∧
      s2.subscribers = [⟨1, ObserverKind.plain⟩, ⟨2, ObserverKind.plain⟩]) :=
  ⟨by decide,
   handleLine_notifies_each_observer_once
     { subscribers := [⟨1, ObserverKind.plain⟩, ⟨2, ObserverKind.plain⟩]
       resolveCalls := 0
       notifications := []
       diagnosticLines := [] }
     ⟨"SomeEvent", ⟨"m"⟩⟩ (by decide)⟩

/-- C8: an envelope with the diagnostic-log discriminant produces exactly one
diagnostic-sink append of its message field, forwarded verbatim, and is still
delivered to every registered observer exactly once. -/
theorem handleLine_diagnostic_logged_and_delivered
    (s : TransportState) (env : KernelEventEnvelope)
    (hd : env.eventType = DiagnosticLogEntryProducedType)
    (hp : ∀ o ∈ s.subscribers, o.kind = ObserverKind.plain) :
    ∃ s2, handleLine env s = some s2 ∧
      s2.diagnosticLines = s.diagnosticLines ++ [env.event.message] ∧
      s2.notifications =
        s.notifications ++ s.subscribers.reverse.map (fun o => (o.id, env)) ∧
      s2.notifications.length = s.notifications.length + s.subscribers.length :=
  ⟨_, handleLine_all_plain env s hp, by simp [hd], rfl, by simp⟩

/-- Witness for C8: the scenario from the specification, a diagnostic entry
with message "boot ok" delivered to one registered observer. -/
theorem handleLine_diagnostic_logged_and_delivered_witness :
    ((⟨DiagnosticLogEntryProducedType, ⟨"boot ok"⟩⟩ :
        KernelEventEnvelope).eventType = DiagnosticLogEntryProducedType) ∧
    (∀ o ∈ ({ subscribers := [⟨4, ObserverKind.plain⟩]
              resolveCalls := 0
              notifications := []
              diagnosticLines := [] } : TransportState).subscribers,
        o.kind = ObserverKind.plain) ∧
    (∃ s2, handleLine ⟨DiagnosticLogEntryProducedType, ⟨"boot ok"⟩⟩
        { subscribers := [⟨4, ObserverKind.plain⟩]
          resolveCalls := 0
          notifications := []
          diagnosticLines := [] } = some s2 ∧
      s2.diagnosticLines = ([] : List String) ++ ["boot ok"] ∧
      s2.notifications =
        ([] : List (Nat × KernelEventEnvelope)) ++
          ([⟨4, ObserverKind.plain⟩] : List Observer).reverse.map
            (fun o => (o.id, (⟨DiagnosticLogEntryProducedType, ⟨"boot ok"⟩⟩ :
              KernelEventEnvelope))) ∧
      s2.notifications.length = ([] : List (Nat × KernelEventEnvelope)).length + 1) :=
  ⟨rfl, by decide,
   handleLine_diagnostic_logged_and_delivered
     { subscribers := [⟨4, ObserverKind.plain⟩]
       resolveCalls := 0
       notifications := []
       diagnosticLines := [] }
     ⟨DiagnosticLogEntryProducedType, ⟨"boot ok"⟩⟩ rfl (by decide)⟩

/-- C7: an observer that disposes its own subscription handle from within its
own callback causes no exception (the loop still completes), it is removed
from the observer set, disposing the same handle a second time is a no-op
(the second disposal finds no matching entry), and that observer receives no
notification from any subsequent envelope. -/
theorem selfdisposing_observer_safe_and_not_redelivered
    (pre post : List Observer) (selfObs : Observer) (s : TransportState)
    (hs : s.subscribers = pre ++ selfObs :: post)
    (hk : selfObs.kind = ObserverKind.selfDispose)
    (hp : ∀ o ∈ pre ++ post, o.kind = ObserverKind.plain ∧ o.id ≠ selfObs.id)
    (env env2 : KernelEventEnvelope) :
    ∃ s2, handleLine env s = some s2 ∧
      s2.subscribers = pre ++ post ∧
      selfObs ∉ s2.subscribers ∧
      disposeSub selfObs s2.subscribers = s2.subscribers ∧
      ∃ s3, handleLine env2 s2 = some s3 ∧
        s3.notifications =
          s2.notifications ++ (pre ++ post).reverse.map (fun o => (o.id, env2)) ∧
        ∀ p ∈ s3.notifications.drop s2.notifications.length, p.1 ≠ selfObs.id := by
  have hpre : ∀ o ∈ pre, o.kind = ObserverKind.plain :=
    fun o hm => (hp o (List.mem_append_left _ hm)).1
  have hpost : ∀ o ∈ post, o.kind = ObserverKind.plain :=
    fun o hm => (hp o (List.mem_append_right _ hm)).1
  have hnm : selfObs ∉ pre ++ post := fun hm => (hp selfObs hm).2 rfl
  have hnpre : selfObs ∉ pre := fun hm => hnm (List.mem_append_left _ hm)
  obtain ⟨s2, h1e, h1sub⟩ :
      ∃ s2, handleLine env s = some s2 ∧ s2.subscribers = pre ++ post :=
    ⟨_, handleLine_selfDispose_mid env pre post selfObs s hs hk hpre hpost hnpre, rfl⟩
  refine ⟨s2, h1e, h1sub, by rw [h1sub]; exact hnm,
    by rw [h1sub]; exact disposeSub_of_not_mem selfObs (pre ++ post) hnm, ?_⟩
  have hp2 : ∀ o ∈ s2.subscribers, o.kind = ObserverKind.plain := by
    rw [h1sub]
    intro o hm
    exact (hp o hm).1
  obtain ⟨s3, h2e, h2n⟩ :
      ∃ s3, handleLine env2 s2 = some s3 ∧
        s3.notifications =
          s2.notifications ++ s2.subscribers.reverse.map (fun o => (o.id, env2)) :=
    ⟨_, handleLine_all_plain env2 s2 hp2, rfl⟩
  refine ⟨s3, h2e, by rw [h2n, h1sub], ?_⟩
  intro p hm
  rw [h2n, List.drop_left, h1sub] at hm
  obtain ⟨o, ho, rfl⟩ := List.mem_map.mp hm
  have ho2 : o ∈ pre ++ post := by
    rw [List.mem_append]
    have := List.mem_reverse.mp ho
    rw [List.mem_append] at this
    exact this
  exact (hp o ho2).2

/-- Witness for C7: a self-disposing observer between two plain observers. -/
theorem selfdisposing_observer_safe_and_not_redelivered_witness :
    (({ subscribers :=
          [⟨1, ObserverKind.plain⟩, ⟨2, ObserverKind.selfDispose⟩,
            ⟨3, ObserverKind.plain⟩]
        resolveCalls := 0
        notifications := []
        diagnosticLines := [] } : TransportState).subscribers =
      [⟨1, ObserverKind.plain⟩] ++ (⟨2, ObserverKind.selfDispose⟩ : Observer)
        :: [⟨3, ObserverKind.plain⟩]) ∧
    ((⟨2, ObserverKind.selfDispose⟩ : Observer).kind = ObserverKind.selfDispose) ∧
    (∀ o ∈ ([⟨1, ObserverKind.plain⟩] ++ [⟨3, ObserverKind.plain⟩] : List Observer),
        o.kind = ObserverKind.plain ∧
          o.id ≠ (⟨2, ObserverKind.selfDispose⟩ : Observer).id) ∧
    (∃ s2, handleLine ⟨"SomeEvent", ⟨"a"⟩⟩
        { subscribers :=
            [⟨1, ObserverKind.plain⟩, ⟨2, ObserverKind.selfDispose⟩,
              ⟨3, ObserverKind.plain⟩]
          resolveCalls := 0
          notifications := []
          diagnosticLines := [] } = some s2 ∧
      s2.subscribers = [⟨1, ObserverKind.plain⟩] ++ [⟨3, ObserverKind.plain⟩] ∧
      (⟨2, ObserverKind.selfDispose⟩ : Observer) ∉ s2.subscribers ∧
      disposeSub ⟨2, ObserverKind.selfDispose⟩ s2.subscribers = s2.subscribers ∧
      ∃ s3, handleLine ⟨"OtherEvent", ⟨"b"⟩⟩ s2 = some s3 ∧
        s3.notifications =
          s2.notifications ++
            ([⟨1, ObserverKind.plain⟩] ++ [⟨3, ObserverKind.plain⟩] :
              List Observer).reverse.map
                (fun o => (o.id, (⟨"OtherEvent", ⟨"b"⟩⟩ : KernelEventEnvelope))) ∧
        ∀ p ∈ s3.notifications.drop s2.notifications.length,
          p.1 ≠ (⟨2, ObserverKind.selfDispose⟩ : Observer).id) :=
  ⟨by decide, by decide, by decide,
   selfdisposing_observer_safe_and_not_redelivered
     [⟨1, ObserverKind.plain⟩] [⟨3, ObserverKind.plain⟩]
     ⟨2, ObserverKind.selfDispose⟩
     { subscribers :=
         [⟨1, ObserverKind.plain⟩, ⟨2, ObserverKind.selfDispose⟩,
           ⟨3, ObserverKind.plain⟩]
       resolveCalls := 0
       notifications := []
       diagnosticLines := [] }
     (by decide) (by decide) (by decide) ⟨"SomeEvent", ⟨"a"⟩⟩ ⟨"OtherEvent", ⟨"b"⟩⟩⟩

/-! ## Helper lemmas about the heap embedding -/

/-- Reading the freshly allocated reference yields the allocated array. -/
lemma heapRead_append_self (h : ArrayHeap) (xs : List String) :
    heapRead (h ++ [xs]) h.length = xs := by
  simp only [heapRead, getElem?_append_cons xs h []]
  rfl

/-- Allocation at the end does not disturb existing references. -/
lemma heapRead_append_left (h : ArrayHeap) (xs : List String) (r : Nat)
    (hr : r < h.length) : heapRead (h ++ [xs]) r = heapRead h r := by
  simp only [heapRead]
  rw [List.getElem?_append, if_pos hr]

/-- Reading back a written reference. -/
lemma heapRead_write_self (h : ArrayHeap) (r : Nat) (xs : List String)
    (hr : r < h.length) : heapRead (heapWrite h r xs) r = xs := by
  simp only [heapRead, heapWrite]
  rw [List.getElem?_set_eq_of_lt xs hr]
  rfl

/-- Writing one reference does not disturb another. -/
lemma heapRead_write_other (h : ArrayHeap) (r r' : Nat) (xs : List String)
    (hne : r ≠ r') : heapRead (heapWrite h r xs) r' = heapRead h r' := by
  simp only [heapRead, heapWrite, List.getElem?_set_ne hne]

/-! ## Branch lemmas for the argument negotiation -/

/-- Branch taken when no explicit port flag is present and the deprecated
range flag is absent or sits at index 0 (`indexOf` returns `-1` or `0`, and
the source only replaces when the index is strictly positive): the pair is
pushed onto the end. -/
lemma configureHttpArgs_push_branch (freePort : Nat) (args : List String)
    (h1 : "--http-port" ∉ args)
    (h2 : jsIndexOf "--http-port-range" args ≤ 0) :
    configureHttpArgs freePort args =
      { newArgs := args ++ ["--http-port", natToString freePort]
        httpPort := some freePort
        deprecationCount := 0 } := by
  simp only [configureHttpArgs, jsIndexOf_of_not_mem _ _ h1]
  rw [if_pos (by norm_num), if_neg (by omega)]

/-- Branch taken when no explicit port flag is present and the deprecated
range flag sits at a strictly positive index: the flag is overwritten in
place and the following slot receives the rendered port (growing the array
by one when the flag was the last element). -/
lemma configureHttpArgs_range_mid (freePort : Nat) (m₁ m₂ : List String)
    (h1 : "--http-port" ∉ m₁ ++ "--http-port-range" :: m₂)
    (hne : m₁ ≠ [])
    (hnm : "--http-port-range" ∉ m₁) :
    configureHttpArgs freePort (m₁ ++ "--http-port-range" :: m₂) =
      { newArgs := m₁ ++ "--http-port" :: natToString freePort :: m₂.tail
        httpPort := some freePort
        deprecationCount := 1 } := by
  have hidx2 : jsIndexOf "--http-port-range" (m₁ ++ "--http-port-range" :: m₂)
      = (m₁.length : Int) := jsIndexOf_append_cons _ m₁ m₂ hnm
  have hlpos : 0 < m₁.length := by
    cases m₁ with
    | nil => exact absurd rfl hne
    | cons a l => simp
  simp only [configureHttpArgs, jsIndexOf_of_not_mem _ _ h1, hidx2]
  rw [if_pos (by norm_num), if_pos (by exact_mod_cast hlpos)]
  have hset1 : setAtJS (m₁ ++ "--http-port-range" :: m₂)
      ((m₁.length : Int)).toNat "--http-port" = m₁ ++ "--http-port" :: m₂ := by
    simp only [Int.toNat_natCast, setAtJS]
    rw [if_pos (by simp)]
    exact set_append_cons _ _ m₁ m₂
  rw [hset1]
  cases m₂ with
  | nil =>
    have hset2 : setAtJS (m₁ ++ ["--http-port"]) (m₁.length + 1) (natToString freePort)
        = m₁ ++ ["--http-port", natToString freePort] := by
      simp only [setAtJS]
      rw [if_neg (by simp)]
      simp
    simp only [Int.toNat_natCast]
    rw [hset2]
    simp
  | cons w m₂' =>
    have hset2 : setAtJS (m₁ ++ "--http-port" :: w :: m₂')
        (m₁.length + 1) (natToString freePort)
        = m₁ ++ "--http-port" :: natToString freePort :: m₂' := by
      simp only [setAtJS]
      rw [if_pos (by simp)]
      rw [show m₁ ++ "--http-port" :: w :: m₂'
            = (m₁ ++ ["--http-port"]) ++ w :: m₂' by simp,
          show m₁.length + 1 = (m₁ ++ ["--http-port"]).length by simp]
      rw [set_append_cons]
      simp
    simp only [Int.toNat_natCast]
    rw [hset2]
    simp

/-- Counting one occurrence between two segments that avoid the element. -/
lemma count_one_middle (l₁ l₂ : List String) (x y : String)
    (h1 : x ∉ l₁) (h2 : x ∉ l₂) (hy : ¬(y = x)) :
    (l₁ ++ x :: y :: l₂).count x = 1 := by
  rw [List.count_append, List.count_eq_zero.mpr h1]
  simp [List.count_cons, hy, List.count_eq_zero.mpr h2]

/-- C9: when the argument list contains neither the explicit port flag nor
the deprecated range flag, exactly one explicit port pair is appended at the
end, all pre-existing arguments keep their positions, and the fresh port is
recorded. -/
theorem configureHttpArgs_appends_fresh_port (freePort : Nat) (args : List String)
    (h1 : "--http-port" ∉ args) (h2 : "--http-port-range" ∉ args) :
    configureHttpArgs freePort args =
      { newArgs := args ++ ["--http-port", natToString freePort]
        httpPort := some freePort
        deprecationCount := 0 } :=
  configureHttpArgs_push_branch freePort args h1
    (by rw [jsIndexOf_of_not_mem _ _ h2]; norm_num)

/-- Witness for C9: the specification's scenario `["--verbose"]`. -/
theorem configureHttpArgs_appends_fresh_port_witness :
    ("--http-port" ∉ (["--verbose"] : List String)) ∧
    ("--http-port-range" ∉ (["--verbose"] : List String)) ∧
    configureHttpArgs 5000 ["--verbose"] =
      { newArgs := ["--verbose"] ++ ["--http-port", natToString 5000]
        httpPort := some 5000
        deprecationCount := 0 } :=
  ⟨by decide, by decide,
   configureHttpArgs_appends_fresh_port 5000 ["--verbose"] (by decide) (by decide)⟩

/-- C2 (code-bug evidence): evaluation at an argument list whose deprecated
range flag sits at position 0.  Because the source tests `index > 0` rather
than a not-found check, the pair is not replaced in place: the range pair is
left untouched, a fresh port pair is appended after it, and no deprecation
line is logged. -/
theorem configureHttpArgs_range_at_position_zero :
    configureHttpArgs 5000 ["--http-port-range", "1000-3000"] =
      { newArgs := ["--http-port-range", "1000-3000", "--http-port", "5000"]
        httpPort := some 5000
        deprecationCount := 0 } := by
  decide

/-- C3 counterexample: an argument list already containing two explicit port
pairs is returned untouched, so the result does not contain exactly one
explicit port flag/value pair; the claim quantified over every input list is
false. -/
theorem configureHttpArgs_duplicate_flag_two_pairs :
    ¬ ((configureHttpArgs 5000
        ["--http-port", "8000", "--http-port", "9000"]).newArgs.count
          "--http-port" = 1) := by
  decide

/-- C3 (amended): for every argument list in which the explicit port flag
occurs at most once and, when present, is followed by a token that `parseInt`
accepts, the resulting list contains exactly one explicit port flag/value
pair, the recorded port equals the parsed value of that pair, and when the
flag was already present the list is returned without mutation and its
parsed value is recorded. -/
theorem configureHttpArgs_exactly_one_pair (freePort : Nat) (args : List String)
    (hcount : args.count "--http-port" ≤ 1)
    (hval : "--http-port" ∈ args →
      ∃ n, jsParseIntAt args ((jsIndexOf "--http-port" args).toNat + 1) = some n) :
    ((configureHttpArgs freePort args).newArgs.count "--http-port" = 1 ∧
      ∃ i v, (configureHttpArgs freePort args).newArgs[i]? = some "--http-port" ∧
        (configureHttpArgs freePort args).newArgs[i + 1]? = some v ∧
        parseIntJS v = (configureHttpArgs freePort args).httpPort ∧
        (configureHttpArgs freePort args).httpPort ≠ none) ∧
    ("--http-port" ∈ args →
      (configureHttpArgs freePort args).newArgs = args ∧
      (configureHttpArgs freePort args).httpPort =
        jsParseIntAt args ((jsIndexOf "--http-port" args).toNat + 1)) := by
  by_cases hmem : "--http-port" ∈ args
  · obtain ⟨l₁, l₂, hsplit, hnm, hidx⟩ := jsIndexOf_mem_split "--http-port" args hmem
    have hres : configureHttpArgs freePort args =
        { newArgs := args
          httpPort := jsParseIntAt args (l₁.length + 1)
          deprecationCount := 0 } := by
      simp only [configureHttpArgs, hidx]
      rw [if_neg (by omega)]
      simp
    obtain ⟨n, hn⟩ := hval hmem
    rw [hidx] at hn
    simp only [Int.toNat_natCast] at hn
    obtain ⟨v, hv, hpv⟩ : ∃ v, args[l₁.length + 1]? = some v ∧ parseIntJS v = some n := by
      unfold jsParseIntAt at hn
      cases harg : args[l₁.length + 1]? with
      | none => rw [harg] at hn; exact absurd hn (by simp)
      | some v => rw [harg] at hn; exact ⟨v, rfl, hn⟩
    have hcnt : args.count "--http-port" = 1 := by
      have := List.count_pos_iff.mpr hmem
      omega
    have hflag : args[l₁.length]? = some "--http-port" := by
      rw [hsplit]
      exact getElem?_append_cons _ l₁ l₂
    rw [hres]
    refine ⟨⟨hcnt, ⟨l₁.length, v, hflag, hv, ?_, ?_⟩⟩, fun _ => ⟨rfl, ?_⟩⟩
    · show parseIntJS v = jsParseIntAt args (l₁.length + 1)
      unfold jsParseIntAt
      rw [hv]
    · show jsParseIntAt args (l₁.length + 1) ≠ none
      rw [hn]
      simp
    · show jsParseIntAt args (l₁.length + 1)
        = jsParseIntAt args ((jsIndexOf "--http-port" args).toNat + 1)
      rw [hidx]
      simp
  · have hne : natToString freePort ≠ "--http-port" :=
      natToString_ne_dashed freePort _ (by decide)
    have hres : (configureHttpArgs freePort args =
          { newArgs := args ++ ["--http-port", natToString freePort]
            httpPort := some freePort
            deprecationCount := 0 }) ∨
        (∃ m₁ m₂, args = m₁ ++ "--http-port-range" :: m₂ ∧
          configureHttpArgs freePort args =
            { newArgs := m₁ ++ "--http-port" :: natToString freePort :: m₂.tail
              httpPort := some freePort
              deprecationCount := 1 }) := by
      by_cases hr : "--http-port-range" ∈ args
      · obtain ⟨m₁, m₂, hsplit2, hnm2, hidx2⟩ :=
          jsIndexOf_mem_split "--http-port-range" args hr
        by_cases hm0 : m₁ = []
        · left
          apply configureHttpArgs_push_branch freePort args hmem
          rw [hidx2, hm0]
          simp
        · right
          refine ⟨m₁, m₂, hsplit2, ?_⟩
          rw [hsplit2]
          exact configureHttpArgs_range_mid freePort m₁ m₂
            (hsplit2 ▸ hmem) hm0 hnm2
      · left
        exact configureHttpArgs_push_branch freePort args hmem
          (by rw [jsIndexOf_of_not_mem _ _ hr]; norm_num)
    rcases hres with hres | ⟨m₁, m₂, hsplit2, hres⟩
    · rw [hres]
      refine ⟨⟨?_, ⟨args.length, natToString freePort, ?_, ?_, ?_, ?_⟩⟩,
        fun hm => absurd hm hmem⟩
      · show (args ++ "--http-port" :: natToString freePort :: []).count "--http-port" = 1
        exact count_one_middle args [] _ _ hmem (by simp) hne
      · show (args ++ "--http-port" :: natToString freePort :: [])[args.length]?
          = some "--http-port"
        exact getElem?_append_cons _ args _
      · show (args ++ "--http-port" :: natToString freePort :: [])[args.length + 1]?
          = some (natToString freePort)
        rw [show args ++ "--http-port" :: natToString freePort :: []
              = (args ++ ["--http-port"]) ++ natToString freePort :: [] by simp,
            show args.length + 1 = (args ++ ["--http-port"]).length by simp]
        exact getElem?_append_cons _ _ _
      · exact parseIntJS_natToString freePort
      · simp
    · have hnm1 : "--http-port" ∉ m₁ :=
        fun hc => hmem (hsplit2 ▸ List.mem_append_left _ hc)
      have hnmt : "--http-port" ∉ m₂.tail := by
        intro hc
        apply hmem
        rw [hsplit2]
        exact List.mem_append_right _ (List.mem_cons_of_mem _ (List.mem_of_mem_tail hc))
      rw [hres]
      refine ⟨⟨?_, ⟨m₁.length, natToString freePort, ?_, ?_, ?_, ?_⟩⟩,
        fun hm => absurd hm hmem⟩
      · exact count_one_middle m₁ m₂.tail _ _ hnm1 hnmt hne
      · exact getElem?_append_cons _ m₁ _
      · show (m₁ ++ "--http-port" :: natToString freePort :: m₂.tail)[m₁.length + 1]?
          = some (natToString freePort)
        rw [show m₁ ++ "--http-port" :: natToString freePort :: m₂.tail
              = (m₁ ++ ["--http-port"]) ++ natToString freePort :: m₂.tail by simp,
            show m₁.length + 1 = (m₁ ++ ["--http-port"]).length by simp]
        exact getElem?_append_cons _ _ _
      · exact parseIntJS_natToString freePort
      · simp

/-- Witness for C3 (amended): an argument list already carrying one explicit
port pair. -/
theorem configureHttpArgs_exactly_one_pair_witness :
    ((["--http-port", "8000"] : List String).count "--http-port" ≤ 1) ∧
    (("--http-port" ∈ (["--http-port", "8000"] : List String) →
      ∃ n, jsParseIntAt ["--http-port", "8000"]
        ((jsIndexOf "--http-port" ["--http-port", "8000"]).toNat + 1) = some n)) ∧
    (((configureHttpArgs 4000 ["--http-port", "8000"]).newArgs.count "--http-port" = 1 ∧
      ∃ i v, (configureHttpArgs 4000 ["--http-port", "8000"]).newArgs[i]?
          = some "--http-port" ∧
        (configureHttpArgs 4000 ["--http-port", "8000"]).newArgs[i + 1]? = some v ∧
        parseIntJS v = (configureHttpArgs 4000 ["--http-port", "8000"]).httpPort ∧
        (configureHttpArgs 4000 ["--http-port", "8000"]).httpPort ≠ none) ∧
    ("--http-port" ∈ (["--http-port", "8000"] : List String) →
      (configureHttpArgs 4000 ["--http-port", "8000"]).newArgs = ["--http-port", "8000"] ∧
      (configureHttpArgs 4000 ["--http-port", "8000"]).httpPort =
        jsParseIntAt ["--http-port", "8000"]
          ((jsIndexOf "--http-port" ["--http-port", "8000"]).toNat + 1))) :=
  ⟨by decide, fun _ => ⟨8000, by decide⟩,
   configureHttpArgs_exactly_one_pair 4000 ["--http-port", "8000"]
     (by decide) (fun _ => ⟨8000, by decide⟩)⟩

/-- C4 (code-bug evidence): with a process handle present, a submission
writes the serialized envelope and a newline and resolves, as claimed; but
with no process handle (`childProcess === null`), `isNotNull` still returns
`true` because it compares against `undefined`, so the executor dereferences
`null` and the promise is rejected with a thrown `TypeError`, not by the
bare `reject()` path with no further detail. -/
theorem submitCommand_null_handle_rejects_with_typeerror
    (str : String) (p : ProcHandle) :
    submitCommand str (JSValue.value p) = SubmitOutcome.resolvedWrote [str, "\n"] ∧
    isNotNull (JSValue.null : JSValue ProcHandle) = true ∧
    submitCommand str JSValue.null = SubmitOutcome.rejectedTypeError ∧
    submitCommand str JSValue.null ≠ SubmitOutcome.rejectedNoReason :=
  ⟨rfl, rfl, rfl, fun hc => SubmitOutcome.noConfusion hc⟩

/-- C5 (code-bug evidence): disposal kills the subprocess when a handle is
present, as claimed; but with no process handle (`childProcess === null`),
`isNotNull` still returns `true`, so `null.kill()` is attempted and `dispose`
throws a `TypeError` instead of having no effect. -/
theorem dispose_null_handle_throws (p : ProcHandle) :
    disposeTransport (JSValue.value p) = DisposeOutcome.killedProcess ∧
    disposeTransport (JSValue.null : JSValue ProcHandle)
      = DisposeOutcome.threwTypeError ∧
    disposeTransport (JSValue.null : JSValue ProcHandle) ≠ DisposeOutcome.noEffect :=
  ⟨rfl, rfl, by decide⟩

/-- C10: argument negotiation never mutates the caller's array.  The spread
copy allocates a fresh reference distinct from the caller's; every element
assignment and push targets the fresh reference; in every branch the caller's
array reads back unchanged, and the fresh array's final contents agree with
the pure embedding of `configureHttpArgs`. -/
theorem configureHttpArgsHeap_never_mutates_caller
    (freePort : Nat) (h : ArrayHeap) (argsRef : Nat) (href : argsRef < h.length) :
    (configureHttpArgsHeap freePort h argsRef).2.1 ≠ argsRef ∧
    heapRead (configureHttpArgsHeap freePort h argsRef).1 argsRef
      = heapRead h argsRef ∧
    heapRead (configureHttpArgsHeap freePort h argsRef).1
        (configureHttpArgsHeap freePort h argsRef).2.1
      = (configureHttpArgs freePort (heapRead h argsRef)).newArgs := by
  have hne : h.length ≠ argsRef := by omega
  have hra : heapRead (h ++ [heapRead h argsRef]) argsRef = heapRead h argsRef :=
    heapRead_append_left h _ argsRef href
  have hrn : heapRead (h ++ [heapRead h argsRef]) h.length = heapRead h argsRef :=
    heapRead_append_self h _
  have hlen1 : h.length < (h ++ [heapRead h argsRef]).length := by simp
  simp only [configureHttpArgsHeap, configureHttpArgs, hrn]
  by_cases c1 : jsIndexOf "--http-port" (heapRead h argsRef) < 0
  · by_cases c2 : jsIndexOf "--http-port-range" (heapRead h argsRef) > 0
    · simp only [if_pos c1, if_pos c2]
      refine ⟨fun hc => hne hc, ?_, ?_⟩
      · show heapRead _ argsRef = heapRead h argsRef
        rw [heapRead_write_other _ _ _ _ hne, heapRead_write_other _ _ _ _ hne, hra]
      · show heapRead _ h.length = _
        rw [heapRead_write_self _ _ _ (by simp [heapWrite]),
          heapRead_write_self _ _ _ hlen1]
    · simp only [if_pos c1, if_neg c2]
      refine ⟨fun hc => hne hc, ?_, ?_⟩
      · show heapRead _ argsRef = heapRead h argsRef
        rw [heapRead_write_other _ _ _ _ hne, hra]
      · show heapRead _ h.length = _
        rw [heapRead_write_self _ _ _ hlen1]
  · simp only [if_neg c1]
    exact ⟨fun hc => hne hc, hra, hrn⟩

/-- Witness for C10: a one-array heap holding `["--verbose"]`. -/
theorem configureHttpArgsHeap_never_mutates_caller_witness :
    (0 < ([["--verbose"]] : ArrayHeap).length) ∧
    ((configureHttpArgsHeap 6000 [["--verbose"]] 0).2.1 ≠ 0 ∧
      heapRead (configureHttpArgsHeap 6000 [["--verbose"]] 0).1 0
        = heapRead [["--verbose"]] 0 ∧
      heapRead (configureHttpArgsHeap 6000 [["--verbose"]] 0).1
          (configureHttpArgsHeap 6000 [["--verbose"]] 0).2.1
        = (configureHttpArgs 6000 (heapRead [["--verbose"]] 0)).newArgs) :=
  ⟨by decide,
   configureHttpArgsHeap_never_mutates_caller 6000 [["--verbose"]] 0 (by decide)⟩
